import Mathlib

/-!
Verification development for the agent discovery and access-control core of
the MCP gateway registry.

The definitions below are shallow embeddings of the Python source:

* `registry/api/agent_routes.py` — path normalization (`_normalize_path`),
  the catalog access filter (`_filter_agents_by_access`), skill-based
  discovery (`discover_agents_by_skills`), semantic discovery
  (`discover_agents_semantic`) and the health probe (`check_agent_health`).
* `agents/a2a/src/travel-assistant-agent/registry_discovery_client.py` —
  the credential cache (`_get_token`).

Machine floats of the source are modelled by exact rationals (`ℚ`);
Python sets are modelled by deduplicated lists; network effects are
modelled by passing the outcome of the single outbound call as an
explicit argument.
-/

namespace Registry

/-- A skill entry of an agent card (`id` and `name` are the lookup keys). -/
structure AgentSkill where
  id : String
  name : String
  tags : List String
deriving DecidableEq

/-- An agent descriptor as used by the routes in `agent_routes.py`.
Only the fields the embedded operations read are modelled.
`url` is the endpoint as a string (the source converts `HttpUrl` with
`str(...)` before use). -/
structure AgentCard where
  name : String
  description : String
  url : String
  path : String
  skills : List AgentSkill
  tags : List String
  visibility : String
  registered_by : String
  allowed_groups : List String
  trust_level : String
  num_stars : Nat
deriving DecidableEq

/-- The authenticated user context dictionary, with the fields the filter
reads (`user_context.get` defaults are folded into the field types). -/
structure UserContext where
  username : String
  is_admin : Bool
  groups : List String
  accessible_agents : List String
deriving DecidableEq

/-! ### Path normalization (`_normalize_path`, agent_routes.py lines 47-80)

The transformation is embedded on `List Char`; the `String` wrapper is a
direct repackaging (`s.startsWith "/"` is `s.data.head? = some '/'`,
`s.endswith "/"` is `s.data.getLast? = some '/'`, and Python
`rstrip("/")` removes every trailing `'/'`). -/

/-- Python `path.rstrip("/")`: drop every trailing slash character. -/
def stripTrailingSlashes (l : List Char) : List Char :=
  (l.reverse.dropWhile (fun c => c == '/')).reverse

/-- Python `if not path.startswith("/"): path = "/" + path`. -/
def ensureLeadingSlash (l : List Char) : List Char :=
  if l.head? == some '/' then l else '/' :: l

/-- Character-level body of `_normalize_path` for a given (non-`None`) path:
prepend `'/'` when missing, then strip trailing slashes when the path ends
with `'/'` and is longer than one character. -/
def normChars (l : List Char) : List Char :=
  let l1 := ensureLeadingSlash l
  if l1.getLast? == some '/' && decide (1 < l1.length) then stripTrailingSlashes l1 else l1

/-- Python `agent_name.lower().replace(" ", "-")` used when the path is
auto-generated from the agent name. -/
def derivePathFromName (agent_name : String) : String :=
  (agent_name.toLower).replace " " "-"

/-- `_normalize_path(path, agent_name)`: `none` models the `ValueError`
raised when both the path is `None` and the agent name is missing/empty. -/
def _normalize_path (path : Option String) (agent_name : Option String) : Option String :=
  match path with
  | some p => some (String.mk (normChars p.data))
  | none =>
    match agent_name with
    | none => none
    | some nm => if nm == "" then none else some (String.mk (normChars (derivePathFromName nm).data))

/-! ### Catalog access filter (`_filter_agents_by_access`, lines 116-164)

The Python `for` loop appends each included agent to `accessible`; the
recursion below produces the same list, with the `continue` chain
translated branch by branch. -/

/-- The loop body of `_filter_agents_by_access`, one agent at a time. -/
def _filter_agents_by_access (agents : List AgentCard) (ctx : UserContext) : List AgentCard :=
  match agents with
  | [] => []
  | agent :: rest =>
    let tail := _filter_agents_by_access rest ctx
    if ctx.is_admin then agent :: tail
    else if !(ctx.accessible_agents.contains "all") && !(ctx.accessible_agents.contains agent.path) then
      tail
    else if agent.visibility == "public" then agent :: tail
    else if agent.visibility == "private" then
      if agent.registered_by == ctx.username then agent :: tail else tail
    else if agent.visibility == "group-restricted" then
      if !(agent.allowed_groups.inter ctx.groups).isEmpty then agent :: tail else tail
    else tail

/-- Specification-side visibility rule, written from the claim text: the
first matching rule of the admin / allow-list / public / private /
group-restricted chain decides, flattened into a single proposition. -/
def specVisible (p : UserContext) (d : AgentCard) : Prop :=
  p.is_admin = true ∨
    (("all" ∈ p.accessible_agents ∨ d.path ∈ p.accessible_agents) ∧
      (d.visibility = "public" ∨
        (d.visibility = "private" ∧ d.registered_by = p.username) ∨
        (d.visibility = "group-restricted" ∧ ∃ g ∈ d.allowed_groups, g ∈ p.groups)))

instance specVisibleDecidable (p : UserContext) (d : AgentCard) : Decidable (specVisible p d) := by
  unfold specVisible
  exact inferInstance

/-! ### Skill-based discovery (`discover_agents_by_skills`, lines 758-864)

Python floats become exact rationals, Python sets become deduplicated
lists, and the enabled flag is the `agent_service.is_agent_enabled`
collaborator passed as a function of the agent path. -/

/-- Python `round(x, 2)`: round to two decimal places (exact-rational
model of the float rounding in the source, with halves rounded up). -/
def round2 (q : ℚ) : ℚ := ((Rat.floor (q * 100 + 1/2) : ℤ) : ℚ) / 100

/-- The `trust_boost` dictionary with its `.get(trust_level, 0.0)` default. -/
def trustBoostTable (level : String) : ℚ :=
  if level == "unverified" then 0
  else if level == "community" then 2/10
  else if level == "verified" then 5/10
  else if level == "trusted" then 1
  else 0

/-- Python `set(x.lower() for x in l)`: lowercase then deduplicate. -/
def lowerSet (l : List String) : List String := (l.map String.toLower).dedup

/-- The descriptor's matchable skill-key set: the union of lowercased
skill ids and skill names (`agent_skills` in the source). -/
def agentSkillKeys (d : AgentCard) : List String :=
  ((d.skills.map (fun s => s.id.toLower)) ++ (d.skills.map (fun s => s.name.toLower))).dedup

/-- `skill_matches = required_skills & agent_skills`; `required_skills` is
already lowercased and deduplicated by the caller, so the filtered list
has no duplicates and its length is the intersection cardinality. -/
def skillMatchesOf (required_skills : List String) (d : AgentCard) : List String :=
  required_skills.filter (fun s => (agentSkillKeys d).contains s)

/-- `tag_matches = required_tags & agent_tags if required_tags else set()`. -/
def tagMatchesOf (required_tags : List String) (d : AgentCard) : List String :=
  if required_tags.isEmpty then []
  else required_tags.filter (fun t => ((d.tags.map String.toLower).dedup).contains t)

/-- The unrounded relevance of one descriptor
(`0.6*skill_match_score + 0.2*tag_match_score + 0.2*trust_boost`).
The division by `required_skills.length` is only reached with a
non-empty, deduplicated `required_skills`, as in the source. -/
def relevanceOf (required_skills required_tags : List String) (d : AgentCard) : ℚ :=
  let skill_match_score : ℚ :=
    ((skillMatchesOf required_skills d).length : ℚ) / (required_skills.length : ℚ)
  let tag_match_score : ℚ :=
    if required_tags.isEmpty then 0
    else ((tagMatchesOf required_tags d).length : ℚ) / (required_tags.length : ℚ)
  6/10 * skill_match_score + 2/10 * tag_match_score + 2/10 * trustBoostTable d.trust_level

/-- One entry of `matched_agents`: the descriptor (whose fields the source
copies into an `AgentInfo` payload), the rounded relevance score the sort
key reads, and the matched skills list. -/
structure ScoredAgent where
  card : AgentCard
  relevance_score : ℚ
  matched_skills : List String
deriving DecidableEq

/-- Build the `matched_agents` entry for one descriptor. -/
def scoreAgent (required_skills required_tags : List String) (d : AgentCard) : ScoredAgent :=
  ⟨d, round2 (relevanceOf required_skills required_tags d), skillMatchesOf required_skills d⟩

/-- The scoring loop over the accessible descriptors: skip disabled
agents, skip agents with no skill match, append a scored entry otherwise
(source lines 799-849). -/
def discoverLoop (isEnabled : String → Bool) (required_skills required_tags : List String) :
    List AgentCard → List ScoredAgent
  | [] => []
  | agent :: rest =>
    let tail := discoverLoop isEnabled required_skills required_tags rest
    if !(isEnabled agent.path) then tail
    else if (skillMatchesOf required_skills agent).isEmpty then tail
    else scoreAgent required_skills required_tags agent :: tail

/-- The sort relation of `matched_agents.sort(key=..., reverse=True)`:
`x` may come before `y` when `x`'s score is at least `y`'s. A stable
insertion sort under this relation is exactly Python's stable
descending sort. -/
def scoreGE (x y : ScoredAgent) : Prop := y.relevance_score ≤ x.relevance_score

instance : DecidableRel scoreGE :=
  fun x y => inferInstanceAs (Decidable (y.relevance_score ≤ x.relevance_score))

instance : IsTotal ScoredAgent scoreGE :=
  ⟨fun x y => le_total y.relevance_score x.relevance_score⟩

instance : IsTrans ScoredAgent scoreGE :=
  ⟨fun _ _ _ h1 h2 => le_trans h2 h1⟩

/-- Error taxonomy of the discovery endpoints (HTTP 400/422 client errors
are `validationError`, the semantic-search HTTP 500 is
`searchUnavailableError`). -/
inductive DiscoveryError
  | validationError
  | searchUnavailableError
deriving DecidableEq

/-- The matched-and-sorted list before truncation: access filter, scoring
loop, then the stable descending sort. -/
def rankedAgents (isEnabled : String → Bool) (agents : List AgentCard) (ctx : UserContext)
    (skills tags : List String) : List ScoredAgent :=
  let accessible := _filter_agents_by_access agents ctx
  let required_skills := lowerSet skills
  let required_tags := lowerSet tags
  List.insertionSort scoreGE (discoverLoop isEnabled required_skills required_tags accessible)

/-- `discover_agents_by_skills`: FastAPI rejects `max_results` outside
`[1, 100]` before the handler runs, the handler rejects an empty skills
list, then scores, sorts and truncates. -/
def discover_agents_by_skills (isEnabled : String → Bool) (agents : List AgentCard)
    (ctx : UserContext) (skills tags : List String) (max_results : Int) :
    Except DiscoveryError (List ScoredAgent) :=
  if max_results < 1 ∨ 100 < max_results then .error .validationError
  else if skills.isEmpty then .error .validationError
  else .ok ((rankedAgents isEnabled agents ctx skills tags).take max_results.toNat)

/-! ### Semantic discovery (`discover_agents_semantic`, lines 867-957)

The FAISS collaborator call is the one effect; its outcome (the ordered
hit list, or the caught exception's message) is passed in explicitly. -/

/-- One `(path, relevance_score)` hit returned by the vector-search
collaborator. -/
structure SearchHit where
  path : String
  relevance_score : ℚ
deriving DecidableEq

/-- `agent_map = {agent.path: agent for ...}; agent_map.get(p)`: a later
duplicate path overwrites an earlier one, so lookup finds the last match. -/
def agentMapGet (agents : List AgentCard) (p : String) : Option AgentCard :=
  agents.reverse.find? (fun a => a.path == p)

/-- The hydration loop: drop hits whose path is no longer in the catalog,
drop hits the caller may not access, keep the collaborator's order. -/
def semanticLoop (agents : List AgentCard) (ctx : UserContext) :
    List SearchHit → List (AgentCard × ℚ)
  | [] => []
  | hit :: rest =>
    let tail := semanticLoop agents ctx rest
    match agentMapGet agents hit.path with
    | none => tail
    | some card =>
      if (_filter_agents_by_access [card] ctx).isEmpty then tail
      else (card, hit.relevance_score) :: tail

/-- `discover_agents_semantic`: parameter validation, then either the
hydrated-and-filtered hit list or the mapped collaborator failure. -/
def discover_agents_semantic (agents : List AgentCard) (ctx : UserContext)
    (query : String) (max_results : Int)
    (searchOutcome : Except String (List SearchHit)) :
    Except DiscoveryError (List (AgentCard × ℚ)) :=
  if max_results < 1 ∨ 100 < max_results then .error .validationError
  else if query.trim == "" then .error .validationError
  else
    match searchOutcome with
    | .error _ => .error .searchUnavailableError
    | .ok results => .ok (semanticLoop agents ctx results)

/-! ### Health probe (`check_agent_health`, lines 438-513)

The probe body after the 404/403/disabled precondition checks: one
outbound GET whose outcome is classified into a structured report.
`response_time_ms` and `last_checked_iso` are wall-clock readings and are
elided. -/

/-- Outcome of the single outbound GET issued by the probe. -/
inductive ProbeOutcome
  | response (status_code : Nat)
  | timeoutErr
  | transportErr (msg : String)
  | unexpectedErr (msg : String)
deriving DecidableEq

/-- The structured result dictionary the probe returns. -/
structure HealthReport where
  agent_path : String
  ping_url : String
  status : String
  status_code : Option Nat
  detail : Option String
deriving DecidableEq

/-- `ping_url = str(agent_card.url).rstrip("/") + "/ping"`. -/
def pingUrlOf (card : AgentCard) : String :=
  String.mk (stripTrailingSlashes card.url.data) ++ "/ping"

/-- `timeout_seconds = max(1, settings.health_check_timeout_seconds)`. -/
def probeTimeoutSeconds (cfg : Int) : Int := max 1 cfg

/-- Classification of the probe outcome (source lines 479-513): HTTP 200
is healthy, any other status is unhealthy with the code in the detail,
timeouts and transport errors and unexpected errors are caught into
unhealthy reports. -/
def check_agent_health (path : String) (card : AgentCard) (outcome : ProbeOutcome) : HealthReport :=
  let ping_url := pingUrlOf card
  match outcome with
  | .response c =>
    if c == 200 then ⟨path, ping_url, "healthy", some c, none⟩
    else ⟨path, ping_url, "unhealthy", some c, some ("Agent responded with HTTP " ++ toString c)⟩
  | .timeoutErr => ⟨path, ping_url, "unhealthy", none, some "Health check timed out"⟩
  | .transportErr msg => ⟨path, ping_url, "unhealthy", none, some ("Health check failed: " ++ msg)⟩
  | .unexpectedErr msg =>
    ⟨path, ping_url, "unhealthy", none, some ("Unexpected health check error: " ++ msg)⟩

/-! ### Credential cache (`_get_token`, registry_discovery_client.py lines 48-89)

The instance fields `self.token` / `self.token_expires_at` are the
explicit `ClientState`; `time.time()` is the `current_time` argument; the
outcome of the one `POST` to the token endpoint is the `provider`
argument. The result records the outcome, the new state, the request
payload sent upstream (if any), the number of upstream exchanges
performed, and the log lines the code formats. -/

/-- Cached token value and absolute expiry (`self.token`,
`self.token_expires_at`). -/
structure ClientState where
  token : Option String
  token_expires_at : ℚ
deriving DecidableEq

/-- Outcome of the client-credentials `POST`: a transport error
(`aiohttp.ClientError`), or a response with its status, body text, parsed
`access_token` and optional `expires_in`. -/
inductive TokenExchangeOutcome
  | networkError (msg : String)
  | response (status : Nat) (body_text : String) (access_token : String) (expires_in : Option Int)
deriving DecidableEq

/-- The credential-acquisition failure surfaced to the caller
(`raise Exception(...)` in the source, `AuthError` in the spec taxonomy). -/
structure AuthError where
  message : String
deriving DecidableEq

/-- The form-encoded exchange payload
(`grant_type`, `client_id`, `client_secret`). -/
structure TokenRequest where
  grant_type : String
  client_id : String
  client_secret : String
deriving DecidableEq

instance exceptDecEq {ε α : Type} [DecidableEq ε] [DecidableEq α] : DecidableEq (Except ε α) := by
  intro x y
  cases x <;> cases y
  case error.error a b => exact decidable_of_iff (a = b) (by simp)
  case error.ok a b => exact isFalse (fun hc => Except.noConfusion hc)
  case ok.error a b => exact isFalse (fun hc => Except.noConfusion hc)
  case ok.ok a b => exact decidable_of_iff (a = b) (by simp)

/-- Everything one `_get_token` call produces. -/
structure GetTokenResult where
  outcome : Except AuthError String
  state : ClientState
  request : Option TokenRequest
  exchanges : Nat
  logs : List String
deriving DecidableEq

/-- Python truthiness of `self.token` (`Optional[str]`): `None` and the
empty string are falsy. -/
def tokenTruthy : Option String → Bool
  | none => false
  | some t => !(t == "")

/-- The cache-check condition `self.token and current_time < self.token_expires_at - 60`. -/
def cacheFresh (st : ClientState) (current_time : ℚ) : Bool :=
  tokenTruthy st.token && decide (current_time < st.token_expires_at - 60)

/-- `_get_token`: return the cached token while fresh, otherwise perform
one exchange and classify its outcome exactly as the source does. -/
def _get_token (client_id client_secret : String) (st : ClientState) (current_time : ℚ)
    (provider : TokenExchangeOutcome) : GetTokenResult :=
  if cacheFresh st current_time then
    { outcome := .ok (st.token.getD ""), state := st, request := none, exchanges := 0,
      logs := ["Using cached token"] }
  else
    let data : TokenRequest := ⟨"client_credentials", client_id, client_secret⟩
    match provider with
    | .networkError msg =>
      { outcome := .error ⟨"Network error: " ++ msg⟩, state := st, request := some data,
        exchanges := 1, logs := ["Network error getting token: " ++ msg] }
    | .response status body tok exp =>
      if status == 200 then
        let expires_in := exp.getD 300
        { outcome := .ok tok,
          state := { token := some tok, token_expires_at := current_time + (expires_in : ℚ) },
          request := some data, exchanges := 1,
          logs := ["Token acquired, expires in " ++ toString expires_in ++ "s"] }
      else
        { outcome := .error ⟨"Failed to get token: " ++ toString status⟩, state := st,
          request := some data, exchanges := 1,
          logs := ["Token request failed: " ++ toString status ++ " - " ++ body] }

/-! ### Interleaving model for concurrent `_get_token` callers

`_get_token` is an `async` method with no lock: the cache check runs
atomically on the event loop, then the coroutine suspends at the awaited
`POST`, and the store of `self.token` runs after the response arrives.
A caller is therefore a two-step program — an atomic check step and an
atomic complete-exchange step — over the shared `ClientState`, and a
schedule is the order in which the event loop resumes the callers. -/

/-- Where one concurrent caller of `_get_token` is between await points. -/
inductive CallerPhase
  | ready
  | exchanging
  | finished (outcome : Except AuthError String)
deriving DecidableEq

/-- Shared cache state, per-caller phases, and the count of upstream
exchanges performed so far. -/
structure RaceState where
  shared : ClientState
  phases : List CallerPhase
  exchanges : Nat
deriving DecidableEq

/-- Advance caller `i` by one atomic step: a ready caller runs the cache
check (finishing on a hit, suspending into its own exchange on a miss);
an exchanging caller receives the provider response, unconditionally
stores the token on success, and finishes. -/
def raceStep (now : ℚ) (provider : TokenExchangeOutcome) (rs : RaceState) (i : Nat) : RaceState :=
  match rs.phases.get? i with
  | some .ready =>
    if cacheFresh rs.shared now then
      { rs with phases := rs.phases.set i (.finished (.ok (rs.shared.token.getD ""))) }
    else
      { rs with phases := rs.phases.set i .exchanging }
  | some .exchanging =>
    match provider with
    | .networkError msg =>
      { rs with phases := rs.phases.set i (.finished (.error ⟨"Network error: " ++ msg⟩)),
                exchanges := rs.exchanges + 1 }
    | .response status _body tok exp =>
      if status == 200 then
        { shared := { token := some tok, token_expires_at := now + ((exp.getD 300 : Int) : ℚ) },
          phases := rs.phases.set i (.finished (.ok tok)),
          exchanges := rs.exchanges + 1 }
      else
        { rs with phases := rs.phases.set i (.finished (.error ⟨"Failed to get token: " ++ toString status⟩)),
                  exchanges := rs.exchanges + 1 }
  | _ => rs

/-- Run a schedule (a list of caller indices resumed in order). -/
def runSchedule (now : ℚ) (provider : TokenExchangeOutcome) (rs : RaceState)
    (sched : List Nat) : RaceState :=
  sched.foldl (raceStep now provider) rs

/-- Number of exchanges currently in flight. -/
def inFlight (rs : RaceState) : Nat :=
  rs.phases.countP (fun p => p == CallerPhase.exchanging)

/-! ### Specification-side scoring definitions (from the claim text)

These restate the scoring formula with set cardinalities over `Finset`,
to be compared with the list-pipeline embedding of the source. -/

/-- The claim's matchable-key set: case-insensitive union of skill ids
and names. -/
def matchableKeys (d : AgentCard) : Finset String :=
  (d.skills.map (fun s => s.id.toLower)).toFinset ∪
    (d.skills.map (fun s => s.name.toLower)).toFinset

/-- The claim's trust mapping: unverified 0, community 0.2, verified 0.5,
trusted 1. -/
def specTrustBoost (level : String) : ℚ :=
  if level = "unverified" then 0
  else if level = "community" then 2/10
  else if level = "verified" then 5/10
  else if level = "trusted" then 1
  else 0

/-- The claim's skill score: intersection cardinality over the cardinality
of the required set (case-insensitive). -/
def specSkillMatchScore (required_skills : List String) (d : AgentCard) : ℚ :=
  (((required_skills.map String.toLower).toFinset ∩ matchableKeys d).card : ℚ) /
    (((required_skills.map String.toLower).toFinset).card : ℚ)

/-- The claim's tag score: intersection over the optional-tag set when
non-empty, zero otherwise. -/
def specTagMatchScore (optional_tags : List String) (d : AgentCard) : ℚ :=
  if optional_tags = [] then 0
  else
    (((optional_tags.map String.toLower).toFinset ∩
        (d.tags.map String.toLower).toFinset).card : ℚ) /
      ((optional_tags.map String.toLower).toFinset.card : ℚ)

/-- The claim's relevance formula, rounded to two decimal places. -/
def specRelevance (required_skills optional_tags : List String) (d : AgentCard) : ℚ :=
  round2 (6/10 * specSkillMatchScore required_skills d +
    2/10 * specTagMatchScore optional_tags d + 2/10 * specTrustBoost d.trust_level)

/-! ### Concrete carriers used by example conjuncts and witnesses -/

/-- The worked example of the spec: a verified descriptor offering
`book_flight` and `cancel_booking`. -/
def exampleVerifiedAgent : AgentCard :=
  ⟨"travel-agent", "books travel", "http://agent.example", "/travel-agent",
    [⟨"book_flight", "Book Flight", []⟩, ⟨"cancel_booking", "Cancel Booking", []⟩],
    [], "public", "alice", [], "verified", 0⟩

/-- One of twenty matching catalog entries used for the truncation witness. -/
def mkWitnessAgent (i : Nat) : AgentCard :=
  ⟨"agent" ++ toString i, "books flights", "http://a.example", "/agent" ++ toString i,
    [⟨"book_flight", "Book Flight", []⟩], [], "public", "alice", [], "unverified", 0⟩

/-- Twenty descriptors all matching the skill `book_flight`. -/
def witnessCatalog : List AgentCard := (List.range 20).map mkWitnessAgent

/-- An admin principal (sees the whole catalog). -/
def witnessAdmin : UserContext := ⟨"admin", true, [], []⟩

/-- A successful provider response used in the concurrency scenarios. -/
def c2Provider : TokenExchangeOutcome := .response 200 "" "tok" (some 300)

/-- Two callers about to race `_get_token` on an empty cache. -/
def c2Start : RaceState := ⟨⟨none, 0⟩, [.ready, .ready], 0⟩

/-! ## Helper lemmas -/

lemma head?_dropWhile_false (p : Char → Bool) (l : List Char)
    (hl : ∃ c ∈ l, p c = false) :
    ∃ c, (l.dropWhile p).head? = some c ∧ p c = false := by
  induction l with
  | nil => simp at hl
  | cons a t ih =>
    by_cases hpa : p a
    · rw [List.dropWhile_cons, if_pos hpa]
      apply ih
      rcases hl with ⟨c, hc, hpc⟩
      rcases List.mem_cons.mp hc with h | h
      · subst h; rw [hpa] at hpc; cases hpc
      · exact ⟨c, h, hpc⟩
    · rw [List.dropWhile_cons, if_neg hpa]
      exact ⟨a, rfl, Bool.eq_false_iff.mpr hpa⟩

lemma getLast?_dropWhile (p : Char → Bool) (l : List Char)
    (hne : l.dropWhile p ≠ []) : (l.dropWhile p).getLast? = l.getLast? := by
  induction l with
  | nil => simp at hne
  | cons a t ih =>
    by_cases hpa : p a
    · rw [List.dropWhile_cons, if_pos hpa] at hne ⊢
      rw [ih hne]
      have ht : t ≠ [] := by
        intro h; subst h; simp at hne
      cases t with
      | nil => cases ht rfl
      | cons b t2 => rw [List.getLast?_cons_cons]
    · rw [List.dropWhile_cons, if_neg hpa]

lemma stripTrailingSlashes_ne_nil (l : List Char) (hl : ∃ c ∈ l, c ≠ '/') :
    stripTrailingSlashes l ≠ [] := by
  rcases hl with ⟨c, hc, hcne⟩
  have h : ∃ c ∈ l.reverse, (c == '/') = false := by
    exact ⟨c, List.mem_reverse.mpr hc, by simpa using hcne⟩
  rcases head?_dropWhile_false _ _ h with ⟨d, hd, _⟩
  unfold stripTrailingSlashes
  intro hcon
  rw [List.reverse_eq_nil_iff] at hcon
  rw [hcon] at hd
  cases hd

lemma stripTrailingSlashes_getLast? (l : List Char) (hl : ∃ c ∈ l, c ≠ '/') :
    (stripTrailingSlashes l).getLast? ≠ some '/' := by
  rcases hl with ⟨c, hc, hcne⟩
  have h : ∃ c ∈ l.reverse, (c == '/') = false := by
    exact ⟨c, List.mem_reverse.mpr hc, by simpa using hcne⟩
  rcases head?_dropWhile_false _ _ h with ⟨d, hd, hdp⟩
  unfold stripTrailingSlashes
  rw [List.getLast?_reverse, hd]
  intro hcon
  have : d = '/' := by injection hcon
  subst this
  simp at hdp

lemma stripTrailingSlashes_head? (l : List Char) (hl : ∃ c ∈ l, c ≠ '/') :
    (stripTrailingSlashes l).head? = l.head? := by
  have hne : stripTrailingSlashes l ≠ [] := stripTrailingSlashes_ne_nil l hl
  unfold stripTrailingSlashes at hne ⊢
  have hne2 : l.reverse.dropWhile (fun c => c == '/') ≠ [] := by
    intro h; rw [h] at hne; cases hne rfl
  rw [List.head?_reverse, getLast?_dropWhile _ _ hne2, List.getLast?_reverse]

lemma ensureLeadingSlash_head? (l : List Char) : (ensureLeadingSlash l).head? = some '/' := by
  unfold ensureLeadingSlash
  by_cases hh : l.head? = some '/'
  · simp [hh]
  · have : (l.head? == some '/') = false := by simpa using hh
    rw [this]
    simp

lemma mem_ensureLeadingSlash (l : List Char) {c : Char} (hc : c ∈ l) :
    c ∈ ensureLeadingSlash l := by
  unfold ensureLeadingSlash
  by_cases hh : (l.head? == some '/') = true
  · rw [if_pos hh]; exact hc
  · rw [if_neg hh]; exact List.mem_cons_of_mem _ hc

lemma length_lt_of_head_mem (l : List Char) (hhead : l.head? = some '/')
    {c : Char} (hc : c ∈ l) (hcne : c ≠ '/') : 1 < l.length := by
  cases l with
  | nil => cases hc
  | cons a t =>
    cases t with
    | nil =>
      have ha : a = '/' := by injection hhead
      rcases List.mem_singleton.mp hc with h
      rw [h, ha] at hcne
      cases hcne rfl
    | cons b t2 => simp [List.length]

lemma normChars_head_last (l : List Char) (hl : ∃ c ∈ l, c ≠ '/') :
    (normChars l).head? = some '/' ∧ (normChars l).getLast? ≠ some '/' := by
  rcases hl with ⟨c, hc, hcne⟩
  have hhead : (ensureLeadingSlash l).head? = some '/' := ensureLeadingSlash_head? l
  have hmem : c ∈ ensureLeadingSlash l := mem_ensureLeadingSlash l hc
  have hx : ∃ d ∈ ensureLeadingSlash l, d ≠ '/' := ⟨c, hmem, hcne⟩
  unfold normChars
  by_cases hcond : ((ensureLeadingSlash l).getLast? == some '/' &&
      decide (1 < (ensureLeadingSlash l).length)) = true
  · rw [if_pos hcond]
    exact ⟨(stripTrailingSlashes_head? _ hx).trans hhead, stripTrailingSlashes_getLast? _ hx⟩
  · rw [if_neg hcond]
    refine ⟨hhead, ?_⟩
    intro hlast
    apply hcond
    have hlen : 1 < (ensureLeadingSlash l).length :=
      length_lt_of_head_mem _ hhead hmem hcne
    simp [hlast, hlen]

lemma normChars_fixed (l : List Char) (h1 : l.head? = some '/')
    (h2 : l.getLast? ≠ some '/') : normChars l = l := by
  unfold normChars ensureLeadingSlash
  rw [h1]
  have hbeq : (l.getLast? == some '/') = false := by simpa using h2
  simp [hbeq]

/-- C10: for every input containing a character other than `'/'`,
`_normalize_path` returns a path which starts with `'/'`, does not end
with `'/'`, and is a fixed point of the normalization, so the catalog key
computed at registration equals the one computed at lookup. -/
theorem normalize_path_well_formed (p : String) (hp : ∃ c ∈ p.data, c ≠ '/') :
    ∃ q : String, _normalize_path (some p) none = some q ∧
      q.data.head? = some '/' ∧ q.data.getLast? ≠ some '/' ∧
      _normalize_path (some q) none = some q := by
  refine ⟨String.mk (normChars p.data), rfl, ?_, ?_, ?_⟩
  · exact (normChars_head_last p.data hp).1
  · exact (normChars_head_last p.data hp).2
  · show some (String.mk (normChars (normChars p.data))) = some (String.mk (normChars p.data))
    rw [normChars_fixed (normChars p.data) (normChars_head_last p.data hp).1
      (normChars_head_last p.data hp).2]

/-- Witness for C10 at the concrete input `"registry/servers/"`. -/
theorem normalize_path_well_formed_witness :
    (∃ c ∈ ("registry/servers/" : String).data, c ≠ '/') ∧
    ∃ q : String, _normalize_path (some "registry/servers/") none = some q ∧
      q.data.head? = some '/' ∧ q.data.getLast? ≠ some '/' ∧
      _normalize_path (some q) none = some q :=
  ⟨by decide, normalize_path_well_formed "registry/servers/" (by decide)⟩

lemma inter_eq_nil_iff (l1 l2 : List String) : l1.inter l2 = [] ↔ ¬ ∃ g ∈ l1, g ∈ l2 := by
  constructor
  · intro h hc
    rcases hc with ⟨g, h1, h2⟩
    have hg : g ∈ l1.inter l2 := List.mem_inter_of_mem_of_mem h1 h2
    rw [h] at hg
    cases hg
  · intro h
    by_contra hne
    rcases List.exists_mem_of_ne_nil _ hne with ⟨g, hg⟩
    exact h ⟨g, (List.mem_inter_iff.mp hg).1, (List.mem_inter_iff.mp hg).2⟩

lemma access_step_eq (ctx : UserContext) (a : AgentCard) (tail : List AgentCard) :
    (if ctx.is_admin then a :: tail
     else if !(ctx.accessible_agents.contains "all") && !(ctx.accessible_agents.contains a.path) then
       tail
     else if a.visibility == "public" then a :: tail
     else if a.visibility == "private" then
       if a.registered_by == ctx.username then a :: tail else tail
     else if a.visibility == "group-restricted" then
       if !(a.allowed_groups.inter ctx.groups).isEmpty then a :: tail else tail
     else tail)
    = if specVisible ctx a then a :: tail else tail := by
  cases hadm : ctx.is_admin with
  | true => simp [specVisible, hadm]
  | false =>
    by_cases hacc : ("all" ∈ ctx.accessible_agents ∨ a.path ∈ ctx.accessible_agents)
    · have hacc2 : "all" ∉ ctx.accessible_agents → a.path ∈ ctx.accessible_agents :=
        fun hna => hacc.resolve_left hna
      have hfix : (if "all" ∉ ctx.accessible_agents ∧ a.path ∉ ctx.accessible_agents then tail
            else a :: tail) =
          if "all" ∈ ctx.accessible_agents ∨ a.path ∈ ctx.accessible_agents then a :: tail
          else tail := by
        rw [if_neg (fun hcon => hacc.elim hcon.1 hcon.2), if_pos hacc]
      have hc : (!(ctx.accessible_agents.contains "all") &&
          !(ctx.accessible_agents.contains a.path)) = false := by
        simp
        exact hacc2
      by_cases hpub : a.visibility = "public"
      · first
        | (simp [specVisible, hadm, hc, hpub]; done)
        | (simp [specVisible, hadm, hc, hpub]; exact hfix)
      · by_cases hpriv : a.visibility = "private"
        · by_cases hown : a.registered_by = ctx.username <;>
            first
            | (simp [specVisible, hadm, hc, hpub, hpriv, hown]; done)
            | (simp [specVisible, hadm, hc, hpub, hpriv, hown]; exact hfix)
        · by_cases hgrp : a.visibility = "group-restricted"
          · by_cases hint : a.allowed_groups.inter ctx.groups = []
            · have hni : ¬ ∃ g ∈ a.allowed_groups, g ∈ ctx.groups :=
                (inter_eq_nil_iff _ _).mp hint
              first
              | (simp [specVisible, hadm, hc, hpub, hpriv, hgrp, hint, hni]; done)
              | (simp [specVisible, hadm, hc, hpub, hpriv, hgrp, hint, hni]; exact hfix)
            · have hyi : ∃ g ∈ a.allowed_groups, g ∈ ctx.groups := by
                by_contra hno
                exact hint ((inter_eq_nil_iff _ _).mpr hno)
              have hne : (a.allowed_groups.inter ctx.groups).isEmpty = false := by
                cases hh : (a.allowed_groups.inter ctx.groups).isEmpty
                · rfl
                · exact absurd (List.isEmpty_iff.mp hh) hint
              first
              | (simp [specVisible, hadm, hc, hpub, hpriv, hgrp, hne, hyi]; done)
              | (simp [specVisible, hadm, hc, hpub, hpriv, hgrp, hne, hyi]; exact hfix)
          · first
            | (simp [specVisible, hadm, hc, hpub, hpriv, hgrp]; done)
            | (simp [specVisible, hadm, hc, hpub, hpriv, hgrp]; exact hfix)
    · have hnall : "all" ∉ ctx.accessible_agents := fun h => hacc (Or.inl h)
      have hnpath : a.path ∉ ctx.accessible_agents := fun h => hacc (Or.inr h)
      simp [specVisible, hadm, hnall, hnpath, List.elem_iff, hacc]

/-- The recursive translation of the filter loop is `List.filter` of the
specification rule chain. Shared helper behind several claims. -/
lemma filter_agents_eq_spec (agents : List AgentCard) (ctx : UserContext) :
    _filter_agents_by_access agents ctx = agents.filter (fun d => decide (specVisible ctx d)) := by
  induction agents with
  | nil => rfl
  | cons a rest ih =>
    show (if ctx.is_admin then a :: _filter_agents_by_access rest ctx
      else if !(ctx.accessible_agents.contains "all") && !(ctx.accessible_agents.contains a.path) then
        _filter_agents_by_access rest ctx
      else if a.visibility == "public" then a :: _filter_agents_by_access rest ctx
      else if a.visibility == "private" then
        if a.registered_by == ctx.username then a :: _filter_agents_by_access rest ctx
        else _filter_agents_by_access rest ctx
      else if a.visibility == "group-restricted" then
        if !(a.allowed_groups.inter ctx.groups).isEmpty then
          a :: _filter_agents_by_access rest ctx
        else _filter_agents_by_access rest ctx
      else _filter_agents_by_access rest ctx) = _
    rw [access_step_eq ctx a (_filter_agents_by_access rest ctx), ih, List.filter_cons]
    by_cases hv : specVisible ctx a
    · simp [hv]
    · simp [hv]

/-- Single-descriptor corollary used by the lookup-style routes, which
call the filter on `[agent_card]`. -/
lemma filter_single_agent (ctx : UserContext) (a : AgentCard) :
    _filter_agents_by_access [a] ctx = if specVisible ctx a then [a] else [] := by
  rw [filter_agents_eq_spec, List.filter_cons]
  by_cases hv : specVisible ctx a <;> simp [hv]

lemma toFinset_dedup_list (l : List String) : l.dedup.toFinset = l.toFinset := by
  ext x
  simp [List.mem_dedup]

lemma card_toFinset_eq_length_dedup (l : List String) : l.toFinset.card = l.dedup.length := by
  rw [← toFinset_dedup_list l]
  exact List.toFinset_card_of_nodup (List.nodup_dedup l)

lemma dedup_filter_contains_toFinset (l1 l2 : List String) :
    (l1.dedup.filter (fun s => l2.contains s)).toFinset = l1.toFinset ∩ l2.toFinset := by
  ext x
  simp [List.mem_filter, List.mem_dedup, List.elem_iff]

lemma card_inter_eq_length_filter (l1 l2 : List String) :
    (l1.toFinset ∩ l2.toFinset).card = (l1.dedup.filter (fun s => l2.contains s)).length := by
  rw [← dedup_filter_contains_toFinset l1 l2]
  exact List.toFinset_card_of_nodup ((List.nodup_dedup l1).filter _)

lemma agentSkillKeys_toFinset (d : AgentCard) :
    (agentSkillKeys d).toFinset = matchableKeys d := by
  unfold agentSkillKeys matchableKeys
  rw [toFinset_dedup_list, List.toFinset_append]

lemma skill_score_component (skills : List String) (d : AgentCard) :
    ((skillMatchesOf (lowerSet skills) d).length : ℚ) / ((lowerSet skills).length : ℚ)
      = specSkillMatchScore skills d := by
  unfold skillMatchesOf lowerSet specSkillMatchScore
  rw [← agentSkillKeys_toFinset, card_inter_eq_length_filter, card_toFinset_eq_length_dedup]

lemma lowerSet_eq_nil_iff (l : List String) : lowerSet l = [] ↔ l = [] := by
  unfold lowerSet
  rw [List.dedup_eq_nil, List.map_eq_nil_iff]

lemma tag_score_component (tags : List String) (d : AgentCard) :
    (if (lowerSet tags).isEmpty then (0:ℚ)
     else ((tagMatchesOf (lowerSet tags) d).length : ℚ) / ((lowerSet tags).length : ℚ))
      = specTagMatchScore tags d := by
  by_cases h : tags = []
  · subst h
    simp [lowerSet, tagMatchesOf, specTagMatchScore]
  · have h2 : lowerSet tags ≠ [] := fun hc => h ((lowerSet_eq_nil_iff tags).mp hc)
    have h3 : (lowerSet tags).isEmpty = false := by
      cases hh : (lowerSet tags).isEmpty
      · rfl
      · exact absurd (List.isEmpty_iff.mp hh) h2
    rw [if_neg (by simp [h3]), specTagMatchScore, if_neg h]
    unfold tagMatchesOf
    rw [if_neg (by simp [h3])]
    unfold lowerSet
    rw [← toFinset_dedup_list (d.tags.map String.toLower), card_inter_eq_length_filter,
      card_toFinset_eq_length_dedup]

lemma trust_component (level : String) : trustBoostTable level = specTrustBoost level := by
  unfold trustBoostTable specTrustBoost
  by_cases h1 : level = "unverified"
  · simp [h1]
  · by_cases h2 : level = "community"
    · simp [h1, h2]
    · by_cases h3 : level = "verified"
      · simp [h1, h2, h3]
      · by_cases h4 : level = "trusted"
        · simp [h1, h2, h3, h4]
        · simp [h1, h2, h3, h4]

/-- Shared helper: the stored relevance score equals the claim formula. -/
lemma relevance_eq_spec (skills tags : List String) (d : AgentCard) :
    (scoreAgent (lowerSet skills) (lowerSet tags) d).relevance_score
      = specRelevance skills tags d := by
  show round2 (relevanceOf (lowerSet skills) (lowerSet tags) d) = _
  unfold specRelevance
  congr 1
  simp only [relevanceOf]
  rw [skill_score_component, tag_score_component, trust_component]

/-- C3: the relevance stored for every scored descriptor equals
`round2 (0.6*skill + 0.2*tag + 0.2*trust)` with the claim's set
cardinalities and trust table, and the spec's worked example (skills
`book_flight`/`cancel_booking`, required `book_flight`, no tags,
verified) scores exactly 0.70. -/
theorem relevance_score_matches_formula :
    (∀ (skills tags : List String) (d : AgentCard),
        (scoreAgent (lowerSet skills) (lowerSet tags) d).relevance_score
          = specRelevance skills tags d) ∧
    (scoreAgent (lowerSet ["book_flight"]) (lowerSet []) exampleVerifiedAgent).relevance_score
      = 7/10 := by
  refine ⟨relevance_eq_spec, ?_⟩
  with_unfolding_all decide

lemma discoverLoop_eq_filter_map (isEnabled : String → Bool) (rs rt : List String)
    (l : List AgentCard) :
    discoverLoop isEnabled rs rt l
      = (l.filter (fun a => isEnabled a.path && !(skillMatchesOf rs a).isEmpty)).map
          (scoreAgent rs rt) := by
  induction l with
  | nil => rfl
  | cons a t ih =>
    simp only [discoverLoop, List.filter_cons]
    cases he : isEnabled a.path
    · simp [he, ih]
    · cases hm : (skillMatchesOf rs a).isEmpty
      · simp [he, hm, ih]
      · simp [he, hm, ih]

lemma insertionSort_stable_score (l : List ScoredAgent) (q : ℚ) :
    (List.insertionSort scoreGE l).filter (fun e => e.relevance_score == q)
      = l.filter (fun e => e.relevance_score == q) := by
  have hmemq : ∀ x ∈ l.filter (fun e => e.relevance_score == q), x.relevance_score = q := by
    intro x hx
    have hpx := List.of_mem_filter hx
    simpa using hpx
  have hpair : (l.filter (fun e => e.relevance_score == q)).Pairwise scoreGE := by
    apply List.pairwise_of_forall_mem_list
    intro a ha b hb
    unfold scoreGE
    rw [hmemq a ha, hmemq b hb]
  have hsub : List.Sublist (l.filter (fun e => e.relevance_score == q))
      (List.insertionSort scoreGE l) :=
    List.sublist_insertionSort hpair (List.filter_sublist l)
  have hsub2 : List.Sublist (l.filter (fun e => e.relevance_score == q))
      ((List.insertionSort scoreGE l).filter (fun e => e.relevance_score == q)) := by
    have h1 := hsub.filter (fun e => e.relevance_score == q)
    have hself : (l.filter (fun e => e.relevance_score == q)).filter
        (fun e => e.relevance_score == q) = l.filter (fun e => e.relevance_score == q) := by
      apply List.filter_eq_self.mpr
      intro a ha
      exact (List.mem_filter.mp ha).2
    rwa [hself] at h1
  have hlen : ((List.insertionSort scoreGE l).filter (fun e => e.relevance_score == q)).length
      = (l.filter (fun e => e.relevance_score == q)).length :=
    ((List.perm_insertionSort scoreGE l).filter (fun e => e.relevance_score == q)).length_eq
  exact (hsub2.eq_of_length hlen.symm).symm

/-- C4: with valid inputs, skill discovery returns the stable descending
sort of the scored survivors truncated to `max_results`; the survivors
are exactly the accessible, enabled descriptors with a non-empty skill
intersection (so a zero-match descriptor never appears); the sort is a
permutation of the survivors, descending in score, ties keeping catalog
order; and the output length is `min max_results (number of survivors)`. -/
theorem discover_by_skills_ranking (isEnabled : String → Bool) (agents : List AgentCard)
    (ctx : UserContext) (skills tags : List String) (max_results : Int)
    (h1 : 1 ≤ max_results) (h2 : max_results ≤ 100) (h3 : skills ≠ []) :
    discover_agents_by_skills isEnabled agents ctx skills tags max_results
      = .ok ((rankedAgents isEnabled agents ctx skills tags).take max_results.toNat) ∧
    discoverLoop isEnabled (lowerSet skills) (lowerSet tags) (_filter_agents_by_access agents ctx)
      = ((_filter_agents_by_access agents ctx).filter
          (fun a => isEnabled a.path && !(skillMatchesOf (lowerSet skills) a).isEmpty)).map
          (scoreAgent (lowerSet skills) (lowerSet tags)) ∧
    List.Perm (rankedAgents isEnabled agents ctx skills tags)
      (discoverLoop isEnabled (lowerSet skills) (lowerSet tags)
        (_filter_agents_by_access agents ctx)) ∧
    List.Sorted scoreGE (rankedAgents isEnabled agents ctx skills tags) ∧
    (∀ q : ℚ, (rankedAgents isEnabled agents ctx skills tags).filter
        (fun e => e.relevance_score == q)
      = (discoverLoop isEnabled (lowerSet skills) (lowerSet tags)
          (_filter_agents_by_access agents ctx)).filter (fun e => e.relevance_score == q)) ∧
    ((rankedAgents isEnabled agents ctx skills tags).take max_results.toNat).length
      = min max_results.toNat
          (discoverLoop isEnabled (lowerSet skills) (lowerSet tags)
            (_filter_agents_by_access agents ctx)).length := by
  have hv : ¬(max_results < 1 ∨ 100 < max_results) := by
    rintro (h | h) <;> omega
  have hs : ¬(skills.isEmpty = true) := by simp [List.isEmpty_iff, h3]
  refine ⟨?_, discoverLoop_eq_filter_map _ _ _ _, ?_, ?_, ?_, ?_⟩
  · simp [discover_agents_by_skills, hv, hs]
  · exact List.perm_insertionSort scoreGE _
  · exact List.sorted_insertionSort scoreGE _
  · intro q
    exact insertionSort_stable_score _ q
  · rw [List.length_take]
    congr 1
    exact (List.perm_insertionSort scoreGE _).length_eq

/-- Witness for C4: twenty matching descriptors and `max_results = 5`
yield exactly five results. -/
theorem discover_by_skills_ranking_witness :
    ((1:Int) ≤ 5 ∧ (5:Int) ≤ 100 ∧ (["book_flight"] : List String) ≠ []) ∧
    discover_agents_by_skills (fun _ => true) witnessCatalog witnessAdmin ["book_flight"] [] 5
      = .ok ((rankedAgents (fun _ => true) witnessCatalog witnessAdmin
          ["book_flight"] []).take (5:Int).toNat) ∧
    ((rankedAgents (fun _ => true) witnessCatalog witnessAdmin
        ["book_flight"] []).take (5:Int).toNat).length = 5 := by
  refine ⟨⟨by decide, by decide, by decide⟩,
    (discover_by_skills_ranking (fun _ => true) witnessCatalog witnessAdmin
      ["book_flight"] [] 5 (by decide) (by decide) (by decide)).1, ?_⟩
  with_unfolding_all decide

/-- C1: the access filter returns exactly the `List.filter` of the input
under the first-matching-rule chain of the claim (admin override, then
allow-list, then public / private-owner / group-intersection visibility,
excluding unknown visibility values); in particular the result is a
subsequence of the input, preserving order and introducing no duplicates. -/
theorem agent_access_filter_matches_spec (agents : List AgentCard) (ctx : UserContext) :
    _filter_agents_by_access agents ctx = agents.filter (fun d => decide (specVisible ctx d)) ∧
    List.Sublist (_filter_agents_by_access agents ctx) agents := by
  refine ⟨filter_agents_eq_spec agents ctx, ?_⟩
  rw [filter_agents_eq_spec agents ctx]
  exact List.filter_sublist agents

lemma agentMapGet_path {agents : List AgentCard} {p : String} {c : AgentCard}
    (h : agentMapGet agents p = some c) : c.path = p := by
  unfold agentMapGet at h
  have h2 := List.find?_some h
  simpa using h2

lemma agentMapGet_self {agents : List AgentCard} {p : String} {c : AgentCard}
    (h : agentMapGet agents p = some c) : agentMapGet agents c.path = some c := by
  rw [agentMapGet_path h]
  exact h

lemma semanticLoop_sound (agents : List AgentCard) (ctx : UserContext) (hits : List SearchHit) :
    ∀ pr ∈ semanticLoop agents ctx hits,
      specVisible ctx pr.1 ∧ agentMapGet agents pr.1.path = some pr.1 := by
  induction hits with
  | nil => intro pr h; cases h
  | cons hit rest ih =>
    intro pr hpr
    simp only [semanticLoop] at hpr
    cases hg : agentMapGet agents hit.path with
    | none =>
      rw [hg] at hpr
      exact ih pr hpr
    | some card =>
      rw [hg] at hpr
      have hpr2 : pr ∈ (if (_filter_agents_by_access [card] ctx).isEmpty = true
          then semanticLoop agents ctx rest
          else (card, hit.relevance_score) :: semanticLoop agents ctx rest) := hpr
      by_cases hv : (_filter_agents_by_access [card] ctx).isEmpty = true
      · rw [if_pos hv] at hpr2
        exact ih pr hpr2
      · rw [if_neg hv] at hpr2
        rcases List.mem_cons.mp hpr2 with h | h
        · subst h
          refine ⟨?_, agentMapGet_self hg⟩
          by_contra hns
          apply hv
          rw [filter_single_agent, if_neg hns]
          rfl
        · exact ih pr h

lemma semanticLoop_sublist (agents : List AgentCard) (ctx : UserContext)
    (hits : List SearchHit) :
    List.Sublist ((semanticLoop agents ctx hits).map (fun pr => (pr.1.path, pr.2)))
      (hits.map (fun h => (h.path, h.relevance_score))) := by
  induction hits with
  | nil => simp [semanticLoop]
  | cons hit rest ih =>
    simp only [semanticLoop, List.map_cons]
    cases hg : agentMapGet agents hit.path with
    | none =>
      simp only [hg]
      exact ih.cons _
    | some card =>
      simp only [hg]
      by_cases hv : (_filter_agents_by_access [card] ctx).isEmpty = true
      · rw [if_pos hv]
        exact ih.cons _
      · rw [if_neg hv]
        have hp : card.path = hit.path := agentMapGet_path hg
        simp only [List.map_cons, hp]
        exact ih.cons₂ _

lemma semanticLoop_complete (agents : List AgentCard) (ctx : UserContext)
    (hits : List SearchHit) :
    ∀ hit ∈ hits, ∀ c, agentMapGet agents hit.path = some c → specVisible ctx c →
      (c, hit.relevance_score) ∈ semanticLoop agents ctx hits := by
  induction hits with
  | nil => intro hit h; cases h
  | cons h0 rest ih =>
    intro hit hmem c hg hv
    rcases List.mem_cons.mp hmem with h | h
    · subst h
      simp only [semanticLoop, hg]
      rw [filter_single_agent, if_pos hv]
      simp
    · have hmem2 := ih hit h c hg hv
      simp only [semanticLoop]
      cases hg0 : agentMapGet agents h0.path with
      | none => simpa [hg0] using hmem2
      | some card =>
        by_cases hve : (_filter_agents_by_access [card] ctx).isEmpty = true
        · simpa [hg0, hve] using hmem2
        · simp only [hg0, if_neg hve]
          exact List.mem_cons_of_mem _ hmem2

/-- C6: for a non-blank query and valid `max_results`, a collaborator
failure surfaces as `SearchUnavailableError` (no fallback), and a
collaborator success yields exactly the hydration of the hit list: every
returned descriptor is present in the catalog under its path and visible
to the caller, the (path, score) sequence is a subsequence of the
collaborator's (order preserved, missing paths dropped), and every hit
that hydrates to an accessible descriptor is kept. -/
theorem discover_semantic_hydration (agents : List AgentCard) (ctx : UserContext)
    (query : String) (mr : Int) (searchOutcome : Except String (List SearchHit))
    (hq : query.trim ≠ "") (h1 : 1 ≤ mr) (h2 : mr ≤ 100) :
    (∀ e : String, searchOutcome = .error e →
      discover_agents_semantic agents ctx query mr searchOutcome
        = .error .searchUnavailableError) ∧
    (∀ hits : List SearchHit, searchOutcome = .ok hits →
      discover_agents_semantic agents ctx query mr searchOutcome
          = .ok (semanticLoop agents ctx hits) ∧
      (∀ pr ∈ semanticLoop agents ctx hits,
        specVisible ctx pr.1 ∧ agentMapGet agents pr.1.path = some pr.1) ∧
      List.Sublist ((semanticLoop agents ctx hits).map (fun pr => (pr.1.path, pr.2)))
        (hits.map (fun h => (h.path, h.relevance_score))) ∧
      (∀ hit ∈ hits, ∀ c, agentMapGet agents hit.path = some c → specVisible ctx c →
        (c, hit.relevance_score) ∈ semanticLoop agents ctx hits)) := by
  have hr : ¬(mr < 1 ∨ 100 < mr) := by rintro (h | h) <;> omega
  have hqe : (query.trim == "") = false := by simpa using hq
  constructor
  · intro e he
    subst he
    rw [discover_agents_semantic.eq_def, if_neg hr, if_neg (by simp [hqe])]
  · intro hits hh
    subst hh
    refine ⟨?_, semanticLoop_sound agents ctx hits, semanticLoop_sublist agents ctx hits,
      semanticLoop_complete agents ctx hits⟩
    rw [discover_agents_semantic.eq_def, if_neg hr, if_neg (by simp [hqe])]

/-- Witness for C6 at a one-descriptor catalog and a one-hit search
result. -/
theorem discover_semantic_hydration_witness :
    (("book" : String).trim ≠ "" ∧ (1:Int) ≤ 5 ∧ (5:Int) ≤ 100) ∧
    discover_agents_semantic [exampleVerifiedAgent] witnessAdmin "book" 5
        (.ok [⟨"/travel-agent", 9/10⟩])
      = .ok (semanticLoop [exampleVerifiedAgent] witnessAdmin [⟨"/travel-agent", 9/10⟩]) := by
  refine ⟨⟨by with_unfolding_all decide, by decide, by decide⟩, ?_⟩
  exact ((discover_semantic_hydration [exampleVerifiedAgent] witnessAdmin "book" 5
      (.ok [⟨"/travel-agent", 9/10⟩]) (by with_unfolding_all decide) (by decide)
      (by decide)).2 [⟨"/travel-agent", 9/10⟩] rfl).1

/-- C8: the discovery operations reject invalid input with
`ValidationError` before any matching or search work: skill discovery
fails exactly when `max_results` lies outside [1,100] or the skills list
is empty, and semantic discovery fails with `ValidationError` exactly
when `max_results` is out of range or the query is blank. -/
theorem discovery_validation (isEnabled : String → Bool) (agents : List AgentCard)
    (ctx : UserContext) (skills tags : List String) (mr : Int)
    (agents2 : List AgentCard) (ctx2 : UserContext) (query : String) (mr2 : Int)
    (searchOutcome : Except String (List SearchHit)) :
    (discover_agents_by_skills isEnabled agents ctx skills tags mr
        = .error .validationError ↔ (mr < 1 ∨ 100 < mr ∨ skills = [])) ∧
    (discover_agents_semantic agents2 ctx2 query mr2 searchOutcome
        = .error .validationError ↔ (mr2 < 1 ∨ 100 < mr2 ∨ query.trim = "")) := by
  constructor
  · by_cases hr : mr < 1 ∨ 100 < mr
    · rw [discover_agents_by_skills, if_pos hr]
      rcases hr with h | h <;> simp [h]
    · rw [discover_agents_by_skills, if_neg hr]
      by_cases hs : skills = []
      · simp [hs]
      · have hse : skills.isEmpty = false := by
          cases hh : skills.isEmpty
          · rfl
          · exact absurd (List.isEmpty_iff.mp hh) hs
        simp [hse, hr, hs]
  · by_cases hr : mr2 < 1 ∨ 100 < mr2
    · rw [discover_agents_semantic.eq_def, if_pos hr]
      rcases hr with h | h <;> simp [h]
    · rw [discover_agents_semantic.eq_def, if_neg hr]
      by_cases hq : query.trim = ""
      · simp [hq]
      · have hqe : (query.trim == "") = false := by simpa using hq
        rw [if_neg (by simp [hqe])]
        cases searchOutcome with
        | error e => simp [hr, hq]
        | ok hits => simp [hr, hq]

/-- Witness for C8: empty skills and a blank query are rejected. -/
theorem discovery_validation_witness :
    discover_agents_by_skills (fun _ => true) [] witnessAdmin [] [] 10
      = .error .validationError ∧
    discover_agents_semantic [] witnessAdmin " " 10 (.ok [])
      = .error .validationError := by
  have h := discovery_validation (fun _ => true) [] witnessAdmin [] [] 10
    [] witnessAdmin " " 10 (.ok [])
  exact ⟨h.1.mpr (Or.inr (Or.inr rfl)),
    h.2.mpr (Or.inr (Or.inr (by with_unfolding_all decide)))⟩

/-- C5: while a cached (truthy) token is inside its 60-second safety
window, the call returns it with no exchange and the state unchanged;
outside the window a successful exchange stores the new token with
`expires_at = now + expires_in`, returns it, and performs exactly one
exchange. -/
theorem get_token_cache_behavior (client_id client_secret : String) (st : ClientState)
    (now : ℚ) (provider : TokenExchangeOutcome) :
    (∀ t : String, st.token = some t → t ≠ "" → now < st.token_expires_at - 60 →
      (_get_token client_id client_secret st now provider).outcome = .ok t ∧
      (_get_token client_id client_secret st now provider).state = st ∧
      (_get_token client_id client_secret st now provider).exchanges = 0 ∧
      (_get_token client_id client_secret st now provider).request = none) ∧
    (cacheFresh st now = false →
      (_get_token client_id client_secret st now provider).exchanges = 1 ∧
      (∀ (body tok : String) (exp : Option Int), provider = .response 200 body tok exp →
        (_get_token client_id client_secret st now provider).outcome = .ok tok ∧
        (_get_token client_id client_secret st now provider).state
          = { token := some tok, token_expires_at := now + ((exp.getD 300 : Int) : ℚ) } ∧
        (_get_token client_id client_secret st now provider).exchanges = 1)) := by
  constructor
  · intro t ht htne hlt
    have hfresh : cacheFresh st now = true := by
      unfold cacheFresh tokenTruthy
      rw [ht]
      simp [htne, hlt]
    simp [_get_token, hfresh, ht]
  · intro hmiss
    constructor
    · cases provider with
      | networkError msg => simp [_get_token, hmiss]
      | response status body tok exp =>
        by_cases hs : (status == 200) = true
        · simp [_get_token, hmiss, hs]
        · have hs2 : (status == 200) = false := by
            cases hh : (status == 200)
            · rfl
            · exact absurd hh hs
          simp [_get_token, hmiss, hs2]
    · intro body tok exp hp
      subst hp
      simp [_get_token, hmiss]

/-- Witness for C5: a fresh cached token is returned as-is with no
exchange, even with a failing provider standing by. -/
theorem get_token_cache_behavior_witness :
    ((⟨some "tok", 1000⟩ : ClientState).token = some "tok" ∧ ("tok" : String) ≠ ""
      ∧ (0:ℚ) < (1000:ℚ) - 60) ∧
    (_get_token "cid" "secret" ⟨some "tok", 1000⟩ 0 (.networkError "boom")).outcome = .ok "tok" ∧
    (_get_token "cid" "secret" ⟨some "tok", 1000⟩ 0 (.networkError "boom")).exchanges = 0 := by
  have h := (get_token_cache_behavior "cid" "secret" ⟨some "tok", 1000⟩ 0
      (.networkError "boom")).1 "tok" rfl (by decide) (by with_unfolding_all decide)
  exact ⟨⟨rfl, by decide, by with_unfolding_all decide⟩, h.1, h.2.2.1⟩

/-- C9: every exchange failure (transport error or non-200 status) yields
an `AuthError`, and the returned error and every log line are invariant
under the value of the client secret — the secret never flows into the
error message or the logs. -/
theorem get_token_secret_hygiene (client_id s1 s2 : String) (st : ClientState)
    (now : ℚ) (provider : TokenExchangeOutcome) :
    ((_get_token client_id s1 st now provider).outcome
        = (_get_token client_id s2 st now provider).outcome ∧
      (_get_token client_id s1 st now provider).logs
        = (_get_token client_id s2 st now provider).logs) ∧
    (cacheFresh st now = false →
      (∀ msg : String, provider = .networkError msg →
        ∃ e : AuthError, (_get_token client_id s1 st now provider).outcome = .error e) ∧
      (∀ (status : Nat) (body tok : String) (exp : Option Int),
        provider = .response status body tok exp → status ≠ 200 →
        ∃ e : AuthError, (_get_token client_id s1 st now provider).outcome = .error e)) := by
  constructor
  · by_cases hf : cacheFresh st now = true
    · simp [_get_token, hf]
    · have hf2 : cacheFresh st now = false := by
        cases hh : cacheFresh st now
        · rfl
        · exact absurd hh hf
      cases provider with
      | networkError msg => simp [_get_token, hf2]
      | response status body tok exp =>
        by_cases hs : (status == 200) = true
        · simp [_get_token, hf2, hs]
        · have hs2 : (status == 200) = false := by
            cases hh : (status == 200)
            · rfl
            · exact absurd hh hs
          simp [_get_token, hf2, hs2]
  · intro hmiss
    constructor
    · intro msg hp
      subst hp
      exact ⟨⟨"Network error: " ++ msg⟩, by simp [_get_token, hmiss]⟩
    · intro status body tok exp hp hne
      subst hp
      have hs2 : (status == 200) = false := by simpa using hne
      exact ⟨⟨"Failed to get token: " ++ toString status⟩, by simp [_get_token, hmiss, hs2]⟩

/-- Witness for C9: a 401 from the provider yields an `AuthError` whose
message is independent of the secret. -/
theorem get_token_secret_hygiene_witness :
    cacheFresh ⟨none, 0⟩ 1000 = false ∧
    (_get_token "cid" "s3cr3t" ⟨none, 0⟩ 1000 (.response 401 "bad" "" none)).outcome
      = (_get_token "cid" "other" ⟨none, 0⟩ 1000 (.response 401 "bad" "" none)).outcome ∧
    ∃ e : AuthError,
      (_get_token "cid" "s3cr3t" ⟨none, 0⟩ 1000 (.response 401 "bad" "" none)).outcome
        = .error e := by
  have h := get_token_secret_hygiene "cid" "s3cr3t" "other" ⟨none, 0⟩ 1000
    (.response 401 "bad" "" none)
  exact ⟨by with_unfolding_all decide, h.1.1,
    (h.2 (by with_unfolding_all decide)).2 401 "bad" "" none rfl (by decide)⟩

/-- C7: the probe is a total classification into a structured report —
it always resolves to healthy or unhealthy (never an exception), the
liveness URL is the url with trailing slashes stripped plus `/ping`, the
timeout is at least one second, HTTP 200 is healthy, any other status is
unhealthy with the code recorded in the detail, and timeouts, transport
errors and unexpected errors are caught into unhealthy reports with the
corresponding details. -/
theorem health_probe_classification (path : String) (card : AgentCard)
    (outcome : ProbeOutcome) (cfg : Int) :
    ((check_agent_health path card outcome).status = "healthy" ∨
      (check_agent_health path card outcome).status = "unhealthy") ∧
    (check_agent_health path card outcome).ping_url
      = String.mk (stripTrailingSlashes card.url.data) ++ "/ping" ∧
    1 ≤ probeTimeoutSeconds cfg ∧
    (outcome = .response 200 → (check_agent_health path card outcome).status = "healthy") ∧
    (∀ c : Nat, outcome = .response c → c ≠ 200 →
      (check_agent_health path card outcome).status = "unhealthy" ∧
      (check_agent_health path card outcome).status_code = some c ∧
      (check_agent_health path card outcome).detail
        = some ("Agent responded with HTTP " ++ toString c)) ∧
    (outcome = .timeoutErr →
      (check_agent_health path card outcome).status = "unhealthy" ∧
      (check_agent_health path card outcome).detail = some "Health check timed out") ∧
    (∀ msg : String, outcome = .transportErr msg →
      (check_agent_health path card outcome).status = "unhealthy" ∧
      (check_agent_health path card outcome).detail
        = some ("Health check failed: " ++ msg)) ∧
    (∀ msg : String, outcome = .unexpectedErr msg →
      (check_agent_health path card outcome).status = "unhealthy" ∧
      (check_agent_health path card outcome).detail
        = some ("Unexpected health check error: " ++ msg)) := by
  cases outcome with
  | response c =>
    refine ⟨?_, by by_cases hc : c = 200 <;> simp [check_agent_health, pingUrlOf, hc], le_max_left 1 cfg, ?_, ?_, ?_, ?_, ?_⟩
    · by_cases hc : (c == 200) = true
      · exact Or.inl (by simp [check_agent_health, hc])
      · have hc2 : (c == 200) = false := by
          cases hh : (c == 200)
          · rfl
          · exact absurd hh hc
        exact Or.inr (by simp [check_agent_health, hc2])
    · intro h
      injection h with h2
      subst h2
      simp [check_agent_health]
    · intro c2 h hne
      injection h with h2
      subst h2
      have hc2 : (c == 200) = false := by simpa using hne
      simp [check_agent_health, hc2]
    · intro h; simp at h
    · intro msg h; simp at h
    · intro msg h; simp at h
  | timeoutErr =>
    refine ⟨Or.inr rfl, by simp [check_agent_health, pingUrlOf], le_max_left 1 cfg, ?_, ?_, fun _ => ⟨rfl, rfl⟩, ?_, ?_⟩
    · intro h; simp at h
    · intro c2 h; simp at h
    · intro msg h; simp at h
    · intro msg h; simp at h
  | transportErr m =>
    refine ⟨Or.inr rfl, by simp [check_agent_health, pingUrlOf], le_max_left 1 cfg, ?_, ?_, ?_, ?_, ?_⟩
    · intro h; simp at h
    · intro c2 h; simp at h
    · intro h; simp at h
    · intro msg h
      injection h with h2
      subst h2
      exact ⟨rfl, rfl⟩
    · intro msg h; simp at h
  | unexpectedErr m =>
    refine ⟨Or.inr rfl, by simp [check_agent_health, pingUrlOf], le_max_left 1 cfg, ?_, ?_, ?_, ?_, ?_⟩
    · intro h; simp at h
    · intro c2 h; simp at h
    · intro h; simp at h
    · intro msg h; simp at h
    · intro msg h
      injection h with h2
      subst h2
      exact ⟨rfl, rfl⟩

/-- Witness for C7: a timed-out probe resolves to unhealthy with the
timeout detail. -/
theorem health_probe_classification_witness :
    (check_agent_health "/travel-agent" exampleVerifiedAgent ProbeOutcome.timeoutErr).status
      = "unhealthy" ∧
    (check_agent_health "/travel-agent" exampleVerifiedAgent ProbeOutcome.timeoutErr).detail
      = some "Health check timed out" :=
  (health_probe_classification "/travel-agent" exampleVerifiedAgent
    ProbeOutcome.timeoutErr 1).2.2.2.2.2.1 rfl

/-- Counterexample to C2: two concurrent callers racing an empty cache,
each running its cache check before either exchange completes, perform
two upstream exchanges (and both exchanges are simultaneously in flight
after the checks), contradicting the claimed single-flight discipline. -/
theorem single_flight_counterexample :
    (runSchedule 1000 c2Provider c2Start [0, 1, 0, 1]).exchanges = 2 ∧
    (runSchedule 1000 c2Provider c2Start [0, 1, 0, 1]).exchanges ≠ 1 ∧
    inFlight (runSchedule 1000 c2Provider c2Start [0, 1]) = 2 := by
  refine ⟨?_, ?_, ?_⟩ <;> with_unfolding_all decide

/-- C2 amended: `_get_token` has no single-flight guard — each caller
that observes an empty or stale cache at its check performs its own
exchange; with two callers both checking before either completes, two
exchanges are performed in total, whatever the provider replies. -/
theorem get_token_race_two_exchanges (st : ClientState) (now : ℚ)
    (provider : TokenExchangeOutcome) (hmiss : cacheFresh st now = false) :
    (runSchedule now provider ⟨st, [.ready, .ready], 0⟩ [0, 1, 0, 1]).exchanges = 2 := by
  cases provider with
  | networkError msg =>
    simp [runSchedule, raceStep, hmiss, List.foldl]
  | response status body tok exp =>
    by_cases hs : (status == 200) = true
    · simp [runSchedule, raceStep, hmiss, hs, List.foldl]
    · have hs2 : (status == 200) = false := by
        cases hh : (status == 200)
        · rfl
        · exact absurd hh hs
      simp [runSchedule, raceStep, hmiss, hs2, List.foldl]

/-- Witness for the amended C2 at an empty cache and a successful
provider. -/
theorem get_token_race_two_exchanges_witness :
    cacheFresh ⟨none, 0⟩ 1000 = false ∧
    (runSchedule 1000 c2Provider ⟨⟨none, 0⟩, [.ready, .ready], 0⟩ [0, 1, 0, 1]).exchanges = 2 :=
  ⟨by with_unfolding_all decide,
    get_token_race_two_exchanges ⟨none, 0⟩ 1000 c2Provider (by with_unfolding_all decide)⟩

end Registry
